import Mathlib

/-!
Shallow embedding of the TASMIP x-ray spectrum generator
(`src/Library/Imaging/Tasmip.hpp`, function `solutio::Tasmip`).

The C++ function takes a tube potential (int), an aluminum filtration
thickness in mm (double), a filter material name and a data folder; the
last two only serve to construct a `NistPad` attenuation provider, which
is consumed solely through its `LinearAttenuation` method.  We therefore
model the provider as a function `mu : ℝ → ℝ` giving the linear
attenuation coefficient at an energy in MeV.  C++ doubles are modelled
as real numbers, the decimal literals of the embedded coefficient table
as exact rationals.  Note that real division by zero is `0` in Lean,
which stands in for the C++ behaviour of producing non-finite values.
-/

namespace Solutio

set_option maxRecDepth 8000

/-- Number of polynomial terms for each kV value (`num_polynomial_terms[151]`,
Tasmip.hpp lines 62-68). -/
def num_polynomial_terms : List ℕ := [
  0,0,0,0,0,0,0,0,0,0,3,4,4,4,4,4,4,4,4,4,4,4,4,4,4,4,4,4,4,4,
  4,4,4,4,4,4,4,4,4,4,4,4,4,4,4,4,4,4,4,4,4,4,4,4,4,4,4,4,4,4,
  4,4,4,4,4,4,4,4,4,4,4,4,4,4,4,4,4,4,4,4,4,4,4,3,3,3,3,3,3,3,
  3,3,3,3,3,3,3,3,3,3,3,3,3,3,3,3,3,3,3,3,3,3,3,3,3,3,3,3,3,3,
  3,3,3,2,2,2,2,2,2,1,2,1,2,1,1,1,1,1,1,1,1,0,0,0,0,0,0,0,0,0,
  0]

set_option maxHeartbeats 2000000 in
/-- Polynomial coefficients for each kV value (`polynomial_coefficients[4*151]`,
Tasmip.hpp lines 71-223), the decimal literals read as exact rationals. -/
def polynomial_coefficients : List ℚ := [
  0, 0, 0, 0,
  0, 0, 0, 0,
  0, 0, 0, 0,
  0, 0, 0, 0,
  0, 0, 0, 0,
  0, 0, 0, 0,
  0, 0, 0, 0,
  0, 0, 0, 0,
  0, 0, 0, 0,
  0, 0, 0, 0,
  -2.47098, 0.0752249, 0.00016013, 0,
  -54.6852, 2.82597, -0.0370259, 0.000168545,
  -114.966, 7.18167, -0.104151, 0.000524694,
  -20.2312, 7.52303, -0.0972592, 0.000526235,
  344.016, 3.17957, -0.0330693, 0.000311553,
  549.329, 15.0793, -0.0965665, 0.000514238,
  1032.55, 27.9346, -0.151778, 0.000649103,
  1056.84, 53.0529, 0.0400621, -0.000716451,
  1098.84, 82.95, 0.306165, -0.00261713,
  495.798, 147.004, -0.110282, -0.00135451,
  -143.783, 222.91, -0.620631, 0.000189685,
  -1106.66, 277.05, -0.574362, -0.00106621,
  -2281.77, 342.442, -0.579332, -0.00230358,
  -5591.72, 472.413, -1.42996, 0.000504908,
  -9340.54, 618.637, -2.40787, 0.00370171,
  -14065, 776.049, -3.4304, 0.00664641,
  -19203.2, 941.867, -4.54481, 0.00992016,
  -25159.5, 1130.91, -5.99764, 0.0144155,
  -31519.3, 1331.12, -7.55688, 0.019258,
  -31659.4, 1293.12, -6.62524, 0.0159367,
  -31977, 1259.43, -5.72172, 0.0126961,
  -31502, 1213.02, -4.9954, 0.0106863,
  -34045.4, 1273.28, -5.44075, 0.0127505,
  -35257.5, 1267.17, -5.05259, 0.0114025,
  -36598, 1264.49, -4.69822, 0.0101743,
  -39355.2, 1325.72, -5.26013, 0.0125117,
  -42394.5, 1396.68, -5.96159, 0.0153918,
  -45054.8, 1445.3, -6.32455, 0.0165782,
  -48074.4, 1506.53, -6.84101, 0.0183228,
  -47721.8, 1455.01, -6.18372, 0.0160985,
  -46872.6, 1383.59, -5.29642, 0.0130534,
  -45340, 1304.46, -4.45863, 0.0102913,
  -47296.7, 1337.3, -4.76811, 0.0112984,
  -45921.6, 1239.85, -3.6517, 0.00750512,
  -44176.2, 1131.55, -2.4227, 0.00334071,
  -49753.2, 1307.91, -4.4909, 0.0109328,
  -56131.9, 1511.97, -6.8753, 0.0196294,
  -55240.7, 1421.87, -5.66911, 0.0148764,
  -54499.4, 1337.32, -4.52793, 0.0103572,
  -58841.9, 1478.83, -6.29327, 0.0168762,
  -63109.8, 1616.22, -8.00933, 0.0232159,
  -59955.9, 1496.68, -6.90603, 0.0197785,
  -59641, 1456.7, -6.53432, 0.0185367,
  -61325.5, 1489.14, -6.9568, 0.0200507,
  -63048.9, 1522.43, -7.39089, 0.0216112,
  -59943.4, 1380.87, -5.83974, 0.0161994,
  -56108.7, 1218.27, -4.0921, 0.0101841,
  -18257.3, -138.212, 9.55782, -0.0214005,
  22200.2, -1568.66, 23.8981, -0.0550569,
  55017.1, -2721.16, 35.278, -0.080474,
  89229.4, -3915.85, 47.0499, -0.107056,
  21049.9, -1557.36, 23.2189, -0.0513497,
  -50765.2, 903.221, -1.57983, 0.0073063,
  -60307.9, 1202.07, -4.55231, 0.0141953,
  -69849.9, 1499.85, -7.51309, 0.021038,
  -71086.4, 1507.31, -7.47214, 0.020248,
  -73275.4, 1540.89, -7.68993, 0.0202855,
  -31611.8, 129.777, 6.39248, -0.0169374,
  10363, -1288.01, 20.5198, -0.054239,
  -41324.9, 442.09, 2.4486, 2.20225e-05,
  -99831.4, 2351.14, -17.2219, 0.0589682,
  -83458.3, 1820.26, -11.4076, 0.0347451,
  -60380.5, 1099.14, -3.83639, 0.00521521,
  -73322.3, 1472.74, -7.48113, 0.0164473,
  -88668.9, 1911.74, -11.7274, 0.029487,
  -89062.8, 1903.69, -11.6664, 0.0295337,
  -91220.8, 1949.91, -12.124, 0.0311903,
  -91959.2, 1956.64, -12.2202, 0.0315568,
  -93935, 1997.57, -12.6445, 0.0329425,
  -94605.9, 1985.57, -12.4063, 0.0318846,
  -94659.1, 1947.31, -11.9191, 0.0300554,
  -105496, 2287.74, -15.4656, 0.0419277,
  -112882, 2523.28, -18.0638, 0.0509944,
  -56523.8, 846.081, -1.8903, 0,
  -62531.1, 954.621, -2.42146, 0,
  -60632.5, 909.326, -2.22283, 0,
  -58390.9, 858.149, -1.99938, 0,
  -61774.4, 909.695, -2.21962, 0,
  -65513.4, 967.438, -2.46616, 0,
  -64821.1, 946.375, -2.38406, 0,
  -63965.9, 922.536, -2.29053, 0,
  -59763.8, 838.469, -1.91813, 0,
  -54832.4, 741.841, -1.49268, 0,
  -55459.1, 739.222, -1.46675, 0,
  -51918.7, 667.713, -1.15944, 0,
  -53372.6, 686.444, -1.24856, 0,
  -54997.1, 708.082, -1.34986, 0,
  -61098.6, 810.304, -1.80524, 0,
  -67803.1, 922.439, -2.30102, 0,
  -64635.7, 853.616, -1.98054, 0,
  -61423.2, 784.198, -1.65825, 0,
  -65425.7, 855.126, -1.99914, 0,
  -68502.2, 910.44, -2.27525, 0,
  -67751.8, 873.305, -2.05065, 0,
  -56709.9, 671.731, -1.17464, 0,
  -64311.6, 798.217, -1.73021, 0,
  -72847.8, 939.704, -2.34536, 0,
  -72963.7, 937.042, -2.34909, 0,
  -72519.7, 925.69, -2.31858, 0,
  -73737.9, 938.756, -2.37174, 0,
  -75221.4, 955.706, -2.44056, 0,
  -66450.1, 812.994, -1.89208, 0,
  -53917.2, 611.114, -1.1108, 0,
  -69501.1, 838.185, -1.94384, 0,
  -76568.4, 934.029, -2.2728, 0,
  -71698.2, 856.269, -1.99406, 0,
  -63076.5, 719.95, -1.49034, 0,
  -68961, 801.466, -1.78594, 0,
  -79488, 954.546, -2.35645, 0,
  -80389.4, 960.394, -2.36806, 0,
  -81865.5, 974.475, -2.41113, 0,
  -81272.3, 978.439, -2.50146, 0,
  -64478.5, 732.755, -1.63899, 0,
  -38069.8, 313.166, 0, 0,
  -37978.1, 310.109, 0, 0,
  -40233.9, 325.521, 0, 0,
  -42809.4, 343.283, 0, 0,
  -41146.7, 327.276, 0, 0,
  -39259.7, 309.655, 0, 0,
  319.165, 0, 0, 0,
  -44258, 342.54, 0, 0,
  81.1561, 0, 0, 0,
  -38679.9, 296.981, 0, 0,
  1306.71, 0, 0, 0,
  1153.42, 0, 0, 0,
  981.706, 0, 0, 0,
  809.966, 0, 0, 0,
  668.884, 0, 0, 0,
  527.781, 0, 0, 0,
  349.834, 0, 0, 0,
  171.861, 0, 0, 0,
  0, 0, 0, 0,
  0, 0, 0, 0,
  0, 0, 0, 0,
  0, 0, 0, 0,
  0, 0, 0, 0,
  0, 0, 0, 0,
  0, 0, 0, 0,
  0, 0, 0, 0,
  0, 0, 0, 0,
  0, 0, 0, 0]

set_option maxHeartbeats 1000000 in
/-- The coefficient table scaled by 10^10, as integer rows of four: row `n`,
entry `t` is `polynomial_coefficients[4*n+t] * 10^10` exactly (proved in
`coefZ_spec` below); used to make sign computations kernel-decidable. -/
def coefZ : List (List ℤ) := [
  [0, 0, 0, 0],
  [0, 0, 0, 0],
  [0, 0, 0, 0],
  [0, 0, 0, 0],
  [0, 0, 0, 0],
  [0, 0, 0, 0],
  [0, 0, 0, 0],
  [0, 0, 0, 0],
  [0, 0, 0, 0],
  [0, 0, 0, 0],
  [-24709800000, 752249000, 1601300, 0],
  [-546852000000, 28259700000, -370259000, 1685450],
  [-1149660000000, 71816700000, -1041510000, 5246940],
  [-202312000000, 75230300000, -972592000, 5262350],
  [3440160000000, 31795700000, -330693000, 3115530],
  [5493290000000, 150793000000, -965665000, 5142380],
  [10325500000000, 279346000000, -1517780000, 6491030],
  [10568400000000, 530529000000, 400621000, -7164510],
  [10988400000000, 829500000000, 3061650000, -26171300],
  [4957980000000, 1470040000000, -1102820000, -13545100],
  [-1437830000000, 2229100000000, -6206310000, 1896850],
  [-11066600000000, 2770500000000, -5743620000, -10662100],
  [-22817700000000, 3424420000000, -5793320000, -23035800],
  [-55917200000000, 4724130000000, -14299600000, 5049080],
  [-93405400000000, 6186370000000, -24078700000, 37017100],
  [-140650000000000, 7760490000000, -34304000000, 66464100],
  [-192032000000000, 9418670000000, -45448100000, 99201600],
  [-251595000000000, 11309100000000, -59976400000, 144155000],
  [-315193000000000, 13311200000000, -75568800000, 192580000],
  [-316594000000000, 12931200000000, -66252400000, 159367000],
  [-319770000000000, 12594300000000, -57217200000, 126961000],
  [-315020000000000, 12130200000000, -49954000000, 106863000],
  [-340454000000000, 12732800000000, -54407500000, 127505000],
  [-352575000000000, 12671700000000, -50525900000, 114025000],
  [-365980000000000, 12644900000000, -46982200000, 101743000],
  [-393552000000000, 13257200000000, -52601300000, 125117000],
  [-423945000000000, 13966800000000, -59615900000, 153918000],
  [-450548000000000, 14453000000000, -63245500000, 165782000],
  [-480744000000000, 15065300000000, -68410100000, 183228000],
  [-477218000000000, 14550100000000, -61837200000, 160985000],
  [-468726000000000, 13835900000000, -52964200000, 130534000],
  [-453400000000000, 13044600000000, -44586300000, 102913000],
  [-472967000000000, 13373000000000, -47681100000, 112984000],
  [-459216000000000, 12398500000000, -36517000000, 75051200],
  [-441762000000000, 11315500000000, -24227000000, 33407100],
  [-497532000000000, 13079100000000, -44909000000, 109328000],
  [-561319000000000, 15119700000000, -68753000000, 196294000],
  [-552407000000000, 14218700000000, -56691100000, 148764000],
  [-544994000000000, 13373200000000, -45279300000, 103572000],
  [-588419000000000, 14788300000000, -62932700000, 168762000],
  [-631098000000000, 16162200000000, -80093300000, 232159000],
  [-599559000000000, 14966800000000, -69060300000, 197785000],
  [-596410000000000, 14567000000000, -65343200000, 185367000],
  [-613255000000000, 14891400000000, -69568000000, 200507000],
  [-630489000000000, 15224300000000, -73908900000, 216112000],
  [-599434000000000, 13808700000000, -58397400000, 161994000],
  [-561087000000000, 12182700000000, -40921000000, 101841000],
  [-182573000000000, -1382120000000, 95578200000, -214005000],
  [222002000000000, -15686600000000, 238981000000, -550569000],
  [550171000000000, -27211600000000, 352780000000, -804740000],
  [892294000000000, -39158500000000, 470499000000, -1070560000],
  [210499000000000, -15573600000000, 232189000000, -513497000],
  [-507652000000000, 9032210000000, -15798300000, 73063000],
  [-603079000000000, 12020700000000, -45523100000, 141953000],
  [-698499000000000, 14998500000000, -75130900000, 210380000],
  [-710864000000000, 15073100000000, -74721400000, 202480000],
  [-732754000000000, 15408900000000, -76899300000, 202855000],
  [-316118000000000, 1297770000000, 63924800000, -169374000],
  [103630000000000, -12880100000000, 205198000000, -542390000],
  [-413249000000000, 4420900000000, 24486000000, 220225],
  [-998314000000000, 23511400000000, -172219000000, 589682000],
  [-834583000000000, 18202600000000, -114076000000, 347451000],
  [-603805000000000, 10991400000000, -38363900000, 52152100],
  [-733223000000000, 14727400000000, -74811300000, 164473000],
  [-886689000000000, 19117400000000, -117274000000, 294870000],
  [-890628000000000, 19036900000000, -116664000000, 295337000],
  [-912208000000000, 19499100000000, -121240000000, 311903000],
  [-919592000000000, 19566400000000, -122202000000, 315568000],
  [-939350000000000, 19975700000000, -126445000000, 329425000],
  [-946059000000000, 19855700000000, -124063000000, 318846000],
  [-946591000000000, 19473100000000, -119191000000, 300554000],
  [-1054960000000000, 22877400000000, -154656000000, 419277000],
  [-1128820000000000, 25232800000000, -180638000000, 509944000],
  [-565238000000000, 8460810000000, -18903000000, 0],
  [-625311000000000, 9546210000000, -24214600000, 0],
  [-606325000000000, 9093260000000, -22228300000, 0],
  [-583909000000000, 8581490000000, -19993800000, 0],
  [-617744000000000, 9096950000000, -22196200000, 0],
  [-655134000000000, 9674380000000, -24661600000, 0],
  [-648211000000000, 9463750000000, -23840600000, 0],
  [-639659000000000, 9225360000000, -22905300000, 0],
  [-597638000000000, 8384690000000, -19181300000, 0],
  [-548324000000000, 7418410000000, -14926800000, 0],
  [-554591000000000, 7392220000000, -14667500000, 0],
  [-519187000000000, 6677130000000, -11594400000, 0],
  [-533726000000000, 6864440000000, -12485600000, 0],
  [-549971000000000, 7080820000000, -13498600000, 0],
  [-610986000000000, 8103040000000, -18052400000, 0],
  [-678031000000000, 9224390000000, -23010200000, 0],
  [-646357000000000, 8536160000000, -19805400000, 0],
  [-614232000000000, 7841980000000, -16582500000, 0],
  [-654257000000000, 8551260000000, -19991400000, 0],
  [-685022000000000, 9104400000000, -22752500000, 0],
  [-677518000000000, 8733050000000, -20506500000, 0],
  [-567099000000000, 6717310000000, -11746400000, 0],
  [-643116000000000, 7982170000000, -17302100000, 0],
  [-728478000000000, 9397040000000, -23453600000, 0],
  [-729637000000000, 9370420000000, -23490900000, 0],
  [-725197000000000, 9256900000000, -23185800000, 0],
  [-737379000000000, 9387560000000, -23717400000, 0],
  [-752214000000000, 9557060000000, -24405600000, 0],
  [-664501000000000, 8129940000000, -18920800000, 0],
  [-539172000000000, 6111140000000, -11108000000, 0],
  [-695011000000000, 8381850000000, -19438400000, 0],
  [-765684000000000, 9340290000000, -22728000000, 0],
  [-716982000000000, 8562690000000, -19940600000, 0],
  [-630765000000000, 7199500000000, -14903400000, 0],
  [-689610000000000, 8014660000000, -17859400000, 0],
  [-794880000000000, 9545460000000, -23564500000, 0],
  [-803894000000000, 9603940000000, -23680600000, 0],
  [-818655000000000, 9744750000000, -24111300000, 0],
  [-812723000000000, 9784390000000, -25014600000, 0],
  [-644785000000000, 7327550000000, -16389900000, 0],
  [-380698000000000, 3131660000000, 0, 0],
  [-379781000000000, 3101090000000, 0, 0],
  [-402339000000000, 3255210000000, 0, 0],
  [-428094000000000, 3432830000000, 0, 0],
  [-411467000000000, 3272760000000, 0, 0],
  [-392597000000000, 3096550000000, 0, 0],
  [3191650000000, 0, 0, 0],
  [-442580000000000, 3425400000000, 0, 0],
  [811561000000, 0, 0, 0],
  [-386799000000000, 2969810000000, 0, 0],
  [13067100000000, 0, 0, 0],
  [11534200000000, 0, 0, 0],
  [9817060000000, 0, 0, 0],
  [8099660000000, 0, 0, 0],
  [6688840000000, 0, 0, 0],
  [5277810000000, 0, 0, 0],
  [3498340000000, 0, 0, 0],
  [1718610000000, 0, 0, 0],
  [0, 0, 0, 0],
  [0, 0, 0, 0],
  [0, 0, 0, 0],
  [0, 0, 0, 0],
  [0, 0, 0, 0],
  [0, 0, 0, 0],
  [0, 0, 0, 0],
  [0, 0, 0, 0],
  [0, 0, 0, 0],
  [0, 0, 0, 0]]

/-- Pre-normalization value of spectrum bin `n`: the body of the loop at
Tasmip.hpp lines 230-248.  Bins with a zero term count, and bins at or
above the tube potential, are pushed as `0`; otherwise the degree-`terms`
polynomial in `tube_potential` is evaluated and multiplied by the
filtration attenuation factor `exp(-mu(n/1000) * mm_filtration * 0.1)`. -/
noncomputable def tasmipBin (tube_potential : ℤ) (mm_filtration : ℝ)
    (mu : ℝ → ℝ) (n : ℕ) : ℝ :=
  if num_polynomial_terms.getD n 0 = 0 ∨ (n : ℤ) ≥ tube_potential then 0
  else (∑ t ∈ Finset.range (num_polynomial_terms.getD n 0),
          ((polynomial_coefficients.getD (4 * n + t) 0 : ℚ) : ℝ)
            * (tube_potential : ℝ) ^ t)
        * Real.exp (-(mu ((n : ℝ) / 1000)) * mm_filtration * 0.1)

/-- The `spectrum` vector as it stands after the bin loop, before
normalization: 151 entries, entry `n` being `tasmipBin … n`. -/
noncomputable def tasmipRaw (tube_potential : ℤ) (mm_filtration : ℝ)
    (mu : ℝ → ℝ) : List ℝ :=
  (List.range 151).map (tasmipBin tube_potential mm_filtration mu)

/-- The normalization total computed at Tasmip.hpp line 252:
`sum = Σ_{n=0}^{149} (spectrum[n] + spectrum[n+1]) / 2`. -/
noncomputable def tasmipNormSum (tube_potential : ℤ) (mm_filtration : ℝ)
    (mu : ℝ → ℝ) : ℝ :=
  ∑ n ∈ Finset.range 150,
    ((tasmipRaw tube_potential mm_filtration mu).getD n 0
      + (tasmipRaw tube_potential mm_filtration mu).getD (n + 1) 0) / 2

/-- The returned spectrum: every raw bin divided by the normalization
total (Tasmip.hpp line 253). -/
noncomputable def Tasmip (tube_potential : ℤ) (mm_filtration : ℝ)
    (mu : ℝ → ℝ) : List ℝ :=
  (tasmipRaw tube_potential mm_filtration mu).map
    (fun x => x / tasmipNormSum tube_potential mm_filtration mu)

/-- The zero attenuation provider, used as a concrete instantiation. -/
def muZero : ℝ → ℝ := fun _ => 0

/-- Energy-weighted mean of a 151-bin spectrum, in keV (bin index units). -/
noncomputable def meanEnergy (s : List ℝ) : ℝ :=
  ∑ n ∈ Finset.range 151, (n : ℝ) * s.getD n 0

/-- Horner evaluation of an integer coefficient row at `x`. -/
def hornerZ (x : ℤ) : List ℤ → ℤ
  | [] => 0
  | c :: cs => c + x * hornerZ x cs

/-- Lockstep computation of all scaled raw bins for a natural tube
potential at zero filtration: walks the term-count list and the scaled
coefficient rows together, carrying the bin index. -/
def binsZgo (tp : ℕ) : ℕ → List ℕ → List (List ℤ) → List ℤ
  | _, [], _ => []
  | _, _ :: _, [] => []
  | n, k :: ks, r :: rs =>
    (if k = 0 ∨ tp ≤ n then 0 else hornerZ (tp : ℤ) r) :: binsZgo tp (n + 1) ks rs

/-- The scaled (by 10^10) integer raw-bin list for tube potential `tp`
at zero filtration; `binsZ_spec` relates it to `tasmipBin`. -/
def binsZ (tp : ℕ) : List ℤ := binsZgo tp 0 num_polynomial_terms coefZ

/-- Boolean check that a whole integer bin list is nonnegative. -/
def nonnegList (l : List ℤ) : Bool := l.all fun c => decide (0 ≤ c)

/-- Boolean check that a whole integer bin list is nonpositive. -/
def nonposList (l : List ℤ) : Bool := l.all fun c => decide (c ≤ 0)

/-- Boolean check that the scaled raw bins of `tp` all share the sign of
their (nonzero) total, which makes every normalized entry nonnegative. -/
def goodTp (tp : ℕ) : Bool :=
  (nonnegList (binsZ tp) && decide (0 < (binsZ tp).sum))
    || (nonposList (binsZ tp) && decide ((binsZ tp).sum < 0))

/-- A second zero attenuation provider, syntactically different from
`muZero`, used to instantiate the determinism claim. -/
def muZeroB : ℝ → ℝ := fun e => 0 * e

/-- A strictly decreasing attenuation provider, used to instantiate the
beam-hardening claims. -/
def muLin : ℝ → ℝ := fun e => 1 - e

lemma getD_mapRange (f : ℕ → ℝ) (n : ℕ) (h : n < 151) :
    ((List.range 151).map f).getD n 0 = f n := by
  rw [List.getD_eq_getElem?_getD]
  simp [List.getElem?_map, List.getElem?_range, h]

lemma tasmipRaw_getD (tp : ℤ) (mm : ℝ) (mu : ℝ → ℝ) (n : ℕ) (h : n < 151) :
    (tasmipRaw tp mm mu).getD n 0 = tasmipBin tp mm mu n :=
  getD_mapRange _ n h

lemma Tasmip_eq_mapRange (tp : ℤ) (mm : ℝ) (mu : ℝ → ℝ) :
    Tasmip tp mm mu
      = (List.range 151).map (fun n => tasmipBin tp mm mu n / tasmipNormSum tp mm mu) := by
  rw [Tasmip, tasmipRaw, List.map_map]
  rfl

lemma Tasmip_getD (tp : ℤ) (mm : ℝ) (mu : ℝ → ℝ) (n : ℕ) (h : n < 151) :
    (Tasmip tp mm mu).getD n 0
      = tasmipBin tp mm mu n / tasmipNormSum tp mm mu := by
  rw [Tasmip_eq_mapRange]
  exact getD_mapRange _ n h

lemma tasmipNormSum_eq (tp : ℤ) (mm : ℝ) (mu : ℝ → ℝ) :
    tasmipNormSum tp mm mu
      = ∑ n ∈ Finset.range 150,
          (tasmipBin tp mm mu n + tasmipBin tp mm mu (n + 1)) / 2 := by
  unfold tasmipNormSum
  refine Finset.sum_congr rfl fun n hn => ?_
  have hn' : n < 150 := Finset.mem_range.mp hn
  rw [tasmipRaw_getD tp mm mu n (by omega), tasmipRaw_getD tp mm mu (n + 1) (by omega)]

lemma hornerZ_eq_sum (x : ℤ) (l : List ℤ) :
    hornerZ x l = ∑ t ∈ Finset.range l.length, l.getD t 0 * x ^ t := by
  induction l with
  | nil => simp [hornerZ]
  | cons c cs ih =>
    have step : ∀ t ∈ Finset.range cs.length,
        (c :: cs).getD (t + 1) 0 * x ^ (t + 1) = x * (cs.getD t 0 * x ^ t) := by
      intro t _
      rw [List.getD_cons_succ, pow_succ]
      ring
    rw [hornerZ, ih, List.length_cons, Finset.sum_range_succ', Finset.sum_congr rfl step,
      ← Finset.mul_sum, List.getD_cons_zero, pow_zero, mul_one]
    ring

lemma binsZgo_length (tp m : ℕ) (ks : List ℕ) (rs : List (List ℤ)) :
    (binsZgo tp m ks rs).length = min ks.length rs.length := by
  induction ks generalizing m rs with
  | nil => simp [binsZgo]
  | cons k ks ih =>
    cases rs with
    | nil => simp [binsZgo]
    | cons r rs => simp [binsZgo, ih, Nat.succ_min_succ]

lemma binsZ_length (tp : ℕ) : (binsZ tp).length = 151 := by
  rw [binsZ, binsZgo_length]
  rfl

lemma binsZgo_getD (tp : ℕ) (ks : List ℕ) :
    ∀ (rs : List (List ℤ)) (m n : ℕ), n < ks.length → n < rs.length →
      (binsZgo tp m ks rs).getD n 0
        = if ks.getD n 0 = 0 ∨ tp ≤ m + n then 0 else hornerZ (tp : ℤ) (rs.getD n []) := by
  induction ks with
  | nil => intro rs m n hn hr; simp at hn
  | cons k ks ih =>
    intro rs m n hn hr
    cases rs with
    | nil => simp at hr
    | cons r rs =>
      cases n with
      | zero => simp [binsZgo]
      | succ n =>
        have hn' : n < ks.length := by simpa using hn
        have hr' : n < rs.length := by simpa using hr
        rw [binsZgo, List.getD_cons_succ, List.getD_cons_succ, List.getD_cons_succ,
          ih rs (m + 1) n hn' hr']
        have : m + 1 + n = m + (n + 1) := by omega
        rw [this]

lemma binsZ_getD (tp n : ℕ) (hn : n < 151) :
    (binsZ tp).getD n 0
      = if num_polynomial_terms.getD n 0 = 0 ∨ tp ≤ n then 0
        else hornerZ (tp : ℤ) (coefZ.getD n []) := by
  have h1 : n < num_polynomial_terms.length := by rw [show num_polynomial_terms.length = 151 from rfl]; exact hn
  have h2 : n < coefZ.length := by rw [show coefZ.length = 151 from rfl]; exact hn
  rw [binsZ, binsZgo_getD tp num_polynomial_terms coefZ 0 n h1 h2, Nat.zero_add]

lemma coefZ_spec :
    ∀ n < 151, ∀ t < 4,
      polynomial_coefficients.getD (4 * n + t) 0 * 10000000000
        = ((coefZ.getD n []).getD t 0 : ℚ) := by
  decide!

lemma coef_trailing :
    ∀ n < 151, ∀ t < 4, num_polynomial_terms.getD n 0 ≤ t →
      polynomial_coefficients.getD (4 * n + t) 0 = 0 := by
  decide!

lemma terms_le_four : ∀ n < 151, num_polynomial_terms.getD n 0 ≤ 4 := by
  decide!

lemma coefZ_row_length : ∀ n < 151, (coefZ.getD n []).length = 4 := by
  decide!

/-- Main bridge: at zero filtration the raw bin is the scaled integer bin
divided by 10^10, independently of the attenuation provider. -/
lemma tasmipBin_eq_binsZ (tp n : ℕ) (mu : ℝ → ℝ) (hn : n < 151) :
    tasmipBin (tp : ℤ) 0 mu n = ((binsZ tp).getD n 0 : ℝ) / 10000000000 := by
  rw [tasmipBin, binsZ_getD tp n hn]
  have hcond : (num_polynomial_terms.getD n 0 = 0 ∨ (n : ℤ) ≥ (tp : ℤ))
      ↔ (num_polynomial_terms.getD n 0 = 0 ∨ tp ≤ n) := by
    constructor <;> rintro (h | h)
    · exact Or.inl h
    · exact Or.inr (by exact_mod_cast h)
    · exact Or.inl h
    · exact Or.inr (by exact_mod_cast h)
  by_cases hc : num_polynomial_terms.getD n 0 = 0 ∨ tp ≤ n
  · rw [if_pos (hcond.mpr hc), if_pos hc]
    norm_num
  · rw [if_neg (fun h => hc (hcond.mp h)), if_neg hc]
    have hexp : -(mu ((n : ℝ) / 1000)) * 0 * 0.1 = 0 := by ring
    rw [hexp, Real.exp_zero, mul_one, hornerZ_eq_sum, coefZ_row_length n hn]
    have hzero : ∀ t ∈ Finset.range 4, t ∉ Finset.range (num_polynomial_terms.getD n 0) →
        ((polynomial_coefficients.getD (4 * n + t) 0 : ℚ) : ℝ) * ((tp : ℤ) : ℝ) ^ t = 0 := by
      intro t ht hnt
      have h1 : num_polynomial_terms.getD n 0 ≤ t := by
        by_contra hlt
        exact hnt (Finset.mem_range.mpr (by omega))
      rw [coef_trailing n hn t (Finset.mem_range.mp ht) h1]
      norm_num
    have hsub : Finset.range (num_polynomial_terms.getD n 0) ⊆ Finset.range 4 :=
      Finset.range_subset.mpr (terms_le_four n hn)
    rw [Finset.sum_subset hsub hzero]
    rw [Int.cast_sum, Finset.sum_div]
    refine Finset.sum_congr rfl fun t ht => ?_
    have hts := coefZ_spec n hn t (Finset.mem_range.mp ht)
    have hcast : ((polynomial_coefficients.getD (4 * n + t) 0 : ℚ) : ℝ)
        = (((coefZ.getD n []).getD t 0 : ℤ) : ℝ) / 10000000000 := by
      have h2 := congrArg (fun q : ℚ => (q : ℝ)) hts
      push_cast at h2
      linarith
    rw [hcast]
    push_cast
    ring

lemma trapezoid_sum (f : ℕ → ℝ) (h0 : f 0 = 0) (h150 : f 150 = 0) :
    ∑ n ∈ Finset.range 150, (f n + f (n + 1)) / 2 = ∑ n ∈ Finset.range 151, f n := by
  have hsplit : ∑ n ∈ Finset.range 150, (f n + f (n + 1)) / 2
      = (∑ n ∈ Finset.range 150, f n) / 2 + (∑ n ∈ Finset.range 150, f (n + 1)) / 2 := by
    rw [Finset.sum_div, Finset.sum_div, ← Finset.sum_add_distrib]
    exact Finset.sum_congr rfl fun n _ => add_div _ _ _
  have ha : ∑ n ∈ Finset.range 151, f n = (∑ n ∈ Finset.range 150, f n) + f 150 :=
    Finset.sum_range_succ f 150
  have hb : ∑ n ∈ Finset.range 151, f n = (∑ n ∈ Finset.range 150, f (n + 1)) + f 0 :=
    Finset.sum_range_succ' f 150
  rw [hsplit]
  rw [h150] at ha
  rw [h0] at hb
  linarith

lemma list_sum_getD (l : List ℤ) :
    l.sum = ∑ n ∈ Finset.range l.length, l.getD n 0 := by
  induction l with
  | nil => simp
  | cons a l ih =>
    rw [List.sum_cons, ih, List.length_cons, Finset.sum_range_succ']
    simp only [List.getD_cons_succ, List.getD_cons_zero]
    ring

lemma tasmipBin_boundary (tp : ℤ) (mm : ℝ) (mu : ℝ → ℝ) :
    tasmipBin tp mm mu 0 = 0 ∧ tasmipBin tp mm mu 150 = 0 := by
  constructor <;>
    · rw [tasmipBin, if_pos]
      exact Or.inl rfl

/-- Bridge for the normalization total at zero filtration. -/
lemma tasmipNormSum_eq_binsZ (tp : ℕ) (mu : ℝ → ℝ) :
    tasmipNormSum (tp : ℤ) 0 mu = ((binsZ tp).sum : ℝ) / 10000000000 := by
  rw [tasmipNormSum_eq,
    trapezoid_sum _ (tasmipBin_boundary (tp : ℤ) 0 mu).1 (tasmipBin_boundary (tp : ℤ) 0 mu).2]
  rw [Finset.sum_congr rfl fun n hn => tasmipBin_eq_binsZ tp n mu (Finset.mem_range.mp hn)]
  rw [← Finset.sum_div]
  congr 1
  rw [list_sum_getD, binsZ_length]
  push_cast
  rfl

lemma nonnegList_getD (l : List ℤ) (h : nonnegList l = true) (n : ℕ) :
    0 ≤ l.getD n 0 := by
  by_cases hn : n < l.length
  · rw [List.getD_eq_getElem l 0 hn]
    have hall := List.all_eq_true.mp h
    exact of_decide_eq_true (hall _ (List.getElem_mem hn))
  · rw [List.getD_eq_default l 0 (by omega)]

lemma nonposList_getD (l : List ℤ) (h : nonposList l = true) (n : ℕ) :
    l.getD n 0 ≤ 0 := by
  by_cases hn : n < l.length
  · rw [List.getD_eq_getElem l 0 hn]
    have hall := List.all_eq_true.mp h
    exact of_decide_eq_true (hall _ (List.getElem_mem hn))
  · rw [List.getD_eq_default l 0 (by omega)]

lemma Tasmip_length (tp : ℤ) (mm : ℝ) (mu : ℝ → ℝ) :
    (Tasmip tp mm mu).length = 151 := by
  simp [Tasmip, tasmipRaw]

lemma getD_zero_of_len_le {l : List ℝ} {n : ℕ} (h : l.length ≤ n) :
    l.getD n 0 = 0 := by
  rw [List.getD_eq_getElem?_getD, List.getElem?_eq_none h]
  rfl

lemma getD_int_mem {l : List ℤ} {n : ℕ} (h : n < l.length) : l.getD n 0 ∈ l := by
  rw [List.getD_eq_getElem?_getD, List.getElem?_eq_getElem h]
  exact List.get_mem l n h

/-- Any bin whose table degree is zero or whose index is at or above the
tube potential yields a zero entry of the returned spectrum (note that in
the real-number model `0 / total = 0` holds even for `total = 0`). -/
lemma tasmip_entry_zero (tp : ℤ) (mm : ℝ) (mu : ℝ → ℝ) (n : ℕ)
    (h : num_polynomial_terms.getD n 0 = 0 ∨ (n : ℤ) ≥ tp) :
    (Tasmip tp mm mu).getD n 0 = 0 := by
  by_cases hn : n < 151
  · rw [Tasmip_getD tp mm mu n hn, tasmipBin, if_pos h, zero_div]
  · exact getD_zero_of_len_le (by rw [Tasmip_length]; omega)

lemma binsZ_11_sum_neg : (binsZ 11).sum < 0 := by decide!

lemma normSum11_ne : tasmipNormSum 11 0 muZero ≠ 0 := by
  have h : tasmipNormSum (11 : ℤ) 0 muZero = ((binsZ 11).sum : ℝ) / 10000000000 :=
    tasmipNormSum_eq_binsZ 11 muZero
  rw [h]
  exact ne_of_lt (div_neg_of_neg_of_pos (by exact_mod_cast binsZ_11_sum_neg) (by norm_num))

/-- Raising filtration from `mm1` to `mm2` multiplies each raw bin by the
residual attenuation factor. -/
lemma tasmipBin_scale (tp : ℤ) (mm1 mm2 : ℝ) (mu : ℝ → ℝ) (n : ℕ) :
    tasmipBin tp mm2 mu n
      = tasmipBin tp mm1 mu n
        * Real.exp (-(mu ((n : ℝ) / 1000)) * (mm2 - mm1) * 0.1) := by
  rw [tasmipBin, tasmipBin]
  by_cases h : num_polynomial_terms.getD n 0 = 0 ∨ (n : ℤ) ≥ tp
  · rw [if_pos h, if_pos h, zero_mul]
  · rw [if_neg h, if_neg h]
    have hx : Real.exp (-(mu ((n : ℝ) / 1000)) * mm1 * 0.1)
          * Real.exp (-(mu ((n : ℝ) / 1000)) * (mm2 - mm1) * 0.1)
        = Real.exp (-(mu ((n : ℝ) / 1000)) * mm2 * 0.1) := by
      rw [← Real.exp_add]
      congr 1
      ring
    rw [← hx]
    ring

lemma meanEnergy_Tasmip (tp : ℤ) (mm : ℝ) (mu : ℝ → ℝ) :
    meanEnergy (Tasmip tp mm mu)
      = (∑ n ∈ Finset.range 151, (n : ℝ) * tasmipBin tp mm mu n)
          / tasmipNormSum tp mm mu := by
  rw [meanEnergy, Finset.sum_div]
  refine Finset.sum_congr rfl fun n hn => ?_
  rw [Tasmip_getD tp mm mu n (Finset.mem_range.mp hn)]
  ring

lemma tasmip_congr (tp : ℤ) (mm : ℝ) (mu1 mu2 : ℝ → ℝ)
    (h : ∀ n < 151, tasmipBin tp mm mu1 n = tasmipBin tp mm mu2 n) :
    Tasmip tp mm mu1 = Tasmip tp mm mu2 := by
  have hraw : tasmipRaw tp mm mu1 = tasmipRaw tp mm mu2 := by
    unfold tasmipRaw
    exact List.map_congr_left fun n hn => h n (List.mem_range.mp hn)
  have hsum : tasmipNormSum tp mm mu1 = tasmipNormSum tp mm mu2 := by
    rw [tasmipNormSum, tasmipNormSum, hraw]
  rw [Tasmip, Tasmip, hraw, hsum]

/-- C1: for every energy bin `n` in 0..150 with nonzero table degree and
`n < tube_potential`, the pre-normalization bin value equals the degree-
bounded polynomial in the tube potential times the attenuation factor
`exp(-mu(n/1000 MeV) * filtration_mm / 10)`. -/
theorem tasmip_bin_formula (tube_potential : ℤ) (mm_filtration : ℝ) (mu : ℝ → ℝ)
    (n : ℕ) (hn : n < 151) (hdeg : num_polynomial_terms.getD n 0 ≠ 0)
    (hlt : (n : ℤ) < tube_potential) :
    (tasmipRaw tube_potential mm_filtration mu).getD n 0
      = (∑ t ∈ Finset.range (num_polynomial_terms.getD n 0),
          ((polynomial_coefficients.getD (4 * n + t) 0 : ℚ) : ℝ)
            * (tube_potential : ℝ) ^ t)
        * Real.exp (-(mu ((n : ℝ) / 1000) * mm_filtration / 10)) := by
  rw [tasmipRaw_getD tube_potential mm_filtration mu n hn, tasmipBin, if_neg]
  · congr 1
    congr 1
    ring
  · rintro (h | h)
    · exact hdeg h
    · exact absurd hlt (not_lt.mpr h)

/-- C1 witness at tube potential 80, zero filtration, bin 50. -/
theorem tasmip_bin_formula_witness :
    (tasmipRaw 80 0 muZero).getD 50 0
      = (∑ t ∈ Finset.range (num_polynomial_terms.getD 50 0),
          ((polynomial_coefficients.getD (4 * 50 + t) 0 : ℚ) : ℝ)
            * ((80 : ℤ) : ℝ) ^ t)
        * Real.exp (-(muZero ((50 : ℝ) / 1000) * 0 / 10)) :=
  tasmip_bin_formula 80 0 muZero 50 (by norm_num) (by decide) (by decide)

/-- C2: after the bin loop the function divides each bin by the
trapezoidal total; under `total ≠ 0` the result has 151 entries, its own
trapezoidal sum is 1, and each entry is the raw bin divided by the total. -/
theorem tasmip_normalization (tp : ℤ) (mm : ℝ) (mu : ℝ → ℝ)
    (htot : tasmipNormSum tp mm mu ≠ 0) :
    (Tasmip tp mm mu).length = 151 ∧
    (∑ n ∈ Finset.range 150,
        ((Tasmip tp mm mu).getD n 0 + (Tasmip tp mm mu).getD (n + 1) 0) / 2) = 1 ∧
    ∀ n < 151, (Tasmip tp mm mu).getD n 0
      = (tasmipRaw tp mm mu).getD n 0 / tasmipNormSum tp mm mu := by
  refine ⟨Tasmip_length tp mm mu, ?_, ?_⟩
  · have hcong : ∀ n ∈ Finset.range 150,
        ((Tasmip tp mm mu).getD n 0 + (Tasmip tp mm mu).getD (n + 1) 0) / 2
          = (tasmipBin tp mm mu n + tasmipBin tp mm mu (n + 1)) / 2
              / tasmipNormSum tp mm mu := by
      intro n hn
      have hn' : n < 150 := Finset.mem_range.mp hn
      rw [Tasmip_getD tp mm mu n (by omega), Tasmip_getD tp mm mu (n + 1) (by omega)]
      ring
    rw [Finset.sum_congr rfl hcong, ← Finset.sum_div, ← tasmipNormSum_eq, div_self htot]
  · intro n hn
    rw [Tasmip_getD tp mm mu n hn, tasmipRaw_getD tp mm mu n hn]

/-- C2 witness at tube potential 11, zero filtration. -/
theorem tasmip_normalization_witness :
    tasmipNormSum 11 0 muZero ≠ 0 ∧
    (Tasmip 11 0 muZero).length = 151 ∧
    (∑ n ∈ Finset.range 150,
        ((Tasmip 11 0 muZero).getD n 0 + (Tasmip 11 0 muZero).getD (n + 1) 0) / 2) = 1 ∧
    (Tasmip 11 0 muZero).getD 10 0
      = (tasmipRaw 11 0 muZero).getD 10 0 / tasmipNormSum 11 0 muZero :=
  ⟨normSum11_ne, (tasmip_normalization 11 0 muZero normSum11_ne).1,
    (tasmip_normalization 11 0 muZero normSum11_ne).2.1,
    (tasmip_normalization 11 0 muZero normSum11_ne).2.2 10 (by norm_num)⟩

/-- C3: a bin with zero table degree, or at or above the tube potential,
is zero in the returned spectrum; in particular every bin at or above the
tube potential is zero. -/
theorem tasmip_zero_bins (tp : ℤ) (mm : ℝ) (mu : ℝ → ℝ) (n : ℕ)
    (h : num_polynomial_terms.getD n 0 = 0 ∨ (n : ℤ) ≥ tp)
    (_htot : tasmipNormSum tp mm mu ≠ 0) :
    (Tasmip tp mm mu).getD n 0 = 0 :=
  tasmip_entry_zero tp mm mu n h

/-- C3 witness: tube potential 11, bin 20 (degree 4 but `20 ≥ 11`). -/
theorem tasmip_zero_bins_witness :
    ((num_polynomial_terms.getD 20 0 = 0 ∨ (20 : ℤ) ≥ 11) ∧
      tasmipNormSum 11 0 muZero ≠ 0) ∧
    (Tasmip 11 0 muZero).getD 20 0 = 0 :=
  ⟨⟨Or.inr (by decide), normSum11_ne⟩,
    tasmip_zero_bins 11 0 muZero 20 (Or.inr (by decide)) normSum11_ne⟩

/-- C4 (code evidence): at tube potential 10 every raw bin is zero, so the
normalization total the code divides by is exactly zero, yet the code
still returns a full 151-entry vector instead of raising an error (the
C++ division 0/0 produces NaN entries). -/
theorem tasmip_zero_total_at_10 (mm : ℝ) (mu : ℝ → ℝ) :
    (∀ n : ℕ, tasmipBin 10 mm mu n = 0) ∧
    tasmipNormSum 10 mm mu = 0 ∧
    (Tasmip 10 mm mu).length = 151 := by
  have hb : ∀ n : ℕ, tasmipBin 10 mm mu n = 0 := by
    intro n
    rw [tasmipBin, if_pos]
    rcases le_or_lt 10 n with h | h
    · exact Or.inr (by exact_mod_cast h)
    · left
      interval_cases n <;> rfl
  refine ⟨hb, ?_, Tasmip_length 10 mm mu⟩
  rw [tasmipNormSum_eq]
  simp [hb]

/-- C5 (code evidence): the function performs no input validation: with
the out-of-range tube potential 200 and negative filtration it still
returns a 151-entry vector, and at tube potential 200 it evaluates the
polynomial table to a nonzero bin value rather than rejecting the input. -/
theorem tasmip_no_input_validation (mu : ℝ → ℝ) :
    (Tasmip 200 (-1) mu).length = 151 ∧ tasmipBin 200 0 muZero 50 ≠ 0 := by
  refine ⟨Tasmip_length 200 (-1) mu, ?_⟩
  have h : tasmipBin (200 : ℤ) 0 muZero 50 = ((binsZ 200).getD 50 0 : ℝ) / 10000000000 :=
    tasmipBin_eq_binsZ 200 50 muZero (by norm_num)
  rw [h]
  have hz : (binsZ 200).getD 50 0 ≠ 0 := by decide!
  exact div_ne_zero (by exact_mod_cast hz) (by norm_num)

/-- C8: the function is deterministic: with identical scalar inputs and a
provider answering identically at every queried energy, the outputs are
identical. -/
theorem tasmip_deterministic (tp : ℤ) (mm : ℝ) (mu1 mu2 : ℝ → ℝ)
    (h : ∀ n : ℕ, n < 151 → mu1 ((n : ℝ) / 1000) = mu2 ((n : ℝ) / 1000)) :
    Tasmip tp mm mu1 = Tasmip tp mm mu2 := by
  refine tasmip_congr tp mm mu1 mu2 fun n hn => ?_
  rw [tasmipBin, tasmipBin, h n hn]

/-- C8 witness: two syntactically different providers that agree at all
queried energies give identical spectra. -/
theorem tasmip_deterministic_witness :
    Tasmip 80 (5 / 2) muZero = Tasmip 80 (5 / 2) muZeroB :=
  tasmip_deterministic 80 (5 / 2) muZero muZeroB
    (fun n _ => by simp [muZero, muZeroB])

/-- C9: with zero filtration the attenuation factor is `exp 0 = 1`, so
the output does not depend on the provider at all. -/
theorem tasmip_mu_independent (tp : ℤ) (mu1 mu2 : ℝ → ℝ) :
    Tasmip tp 0 mu1 = Tasmip tp 0 mu2 := by
  refine tasmip_congr tp 0 mu1 mu2 fun n _ => ?_
  rw [tasmipBin, tasmipBin]
  by_cases h : num_polynomial_terms.getD n 0 = 0 ∨ (n : ℤ) ≥ tp
  · rw [if_pos h, if_pos h]
  · rw [if_neg h, if_neg h,
      show -(mu1 ((n : ℝ) / 1000)) * 0 * 0.1 = 0 by ring,
      show -(mu2 ((n : ℝ) / 1000)) * 0 * 0.1 = 0 by ring]

/-- C10: bins 0-9 and 141-150 have zero table degree, so they are zero in
the returned spectrum whatever the potential, filtration and provider. -/
theorem tasmip_unmodeled_bins (tp : ℤ) (mm : ℝ) (mu : ℝ → ℝ) (n : ℕ)
    (hn : n ≤ 9 ∨ (141 ≤ n ∧ n ≤ 150))
    (_htot : tasmipNormSum tp mm mu ≠ 0) :
    (Tasmip tp mm mu).getD n 0 = 0 := by
  apply tasmip_entry_zero
  left
  rcases hn with h | ⟨h1, h2⟩
  · interval_cases n <;> rfl
  · interval_cases n <;> rfl

/-- C10 witness: bin 145 at tube potential 11 and bin 3 likewise. -/
theorem tasmip_unmodeled_bins_witness :
    tasmipNormSum 11 0 muZero ≠ 0 ∧
    (Tasmip 11 0 muZero).getD 145 0 = 0 ∧ (Tasmip 11 0 muZero).getD 3 0 = 0 :=
  ⟨normSum11_ne,
    tasmip_unmodeled_bins 11 0 muZero 145 (Or.inr ⟨by norm_num, by norm_num⟩) normSum11_ne,
    tasmip_unmodeled_bins 11 0 muZero 3 (Or.inl (by norm_num)) normSum11_ne⟩

lemma goodTp_all : ∀ tp < 151, 11 ≤ tp → (tp ≤ 13 ∨ 31 ≤ tp) → goodTp tp = true := by
  decide!

/-- C6 counterexample: at the valid tube potential 14 with zero
filtration, bin 10 of the returned spectrum is strictly negative, so not
every entry of the spectrum is nonnegative. -/
theorem tasmip_negative_entry_cex : (Tasmip 14 0 muZero).getD 10 0 < 0 := by
  have hb : tasmipBin (14 : ℤ) 0 muZero 10 = ((binsZ 14).getD 10 0 : ℝ) / 10000000000 :=
    tasmipBin_eq_binsZ 14 10 muZero (by norm_num)
  have hs : tasmipNormSum (14 : ℤ) 0 muZero = ((binsZ 14).sum : ℝ) / 10000000000 :=
    tasmipNormSum_eq_binsZ 14 muZero
  rw [Tasmip_getD 14 0 muZero 10 (by norm_num), hb, hs]
  have h1 : (binsZ 14).getD 10 0 < 0 := by decide!
  have h2 : 0 < (binsZ 14).sum := by decide!
  exact div_neg_of_neg_of_pos
    (div_neg_of_neg_of_pos (by exact_mod_cast h1) (by norm_num))
    (div_pos (by exact_mod_cast h2) (by norm_num))

/-- C6 amended: for tube potentials 11-13 and 31-150 (excluding 14-30,
where the fitted polynomials give mixed-sign bins) with zero filtration,
every entry of the returned spectrum is nonnegative. -/
theorem tasmip_nonneg_entries (tp : ℕ) (mu : ℝ → ℝ)
    (h1 : 11 ≤ tp) (h2 : tp ≤ 150) (h3 : tp ≤ 13 ∨ 31 ≤ tp) :
    ∀ n : ℕ, 0 ≤ (Tasmip (tp : ℤ) 0 mu).getD n 0 := by
  intro n
  by_cases hn : n < 151
  · rw [Tasmip_getD (tp : ℤ) 0 mu n hn, tasmipBin_eq_binsZ tp n mu hn,
      tasmipNormSum_eq_binsZ tp mu]
    have hg : goodTp tp = true := goodTp_all tp (by omega) h1 h3
    rw [goodTp, Bool.or_eq_true, Bool.and_eq_true, Bool.and_eq_true,
      decide_eq_true_eq, decide_eq_true_eq] at hg
    rcases hg with ⟨hnn, hpos⟩ | ⟨hnp, hneg⟩
    · have ha : (0 : ℝ) ≤ ((binsZ tp).getD n 0 : ℝ) := by
        exact_mod_cast nonnegList_getD _ hnn n
      have hs : (0 : ℝ) < ((binsZ tp).sum : ℝ) := by exact_mod_cast hpos
      exact div_nonneg (div_nonneg ha (by norm_num))
        (div_nonneg (le_of_lt hs) (by norm_num))
    · have ha : ((binsZ tp).getD n 0 : ℝ) ≤ 0 := by
        exact_mod_cast nonposList_getD _ hnp n
      have hs : ((binsZ tp).sum : ℝ) < 0 := by exact_mod_cast hneg
      refine div_nonneg_iff.mpr (Or.inr ⟨?_, ?_⟩)
      · exact div_nonpos_iff.mpr (Or.inr ⟨ha, by norm_num⟩)
      · exact le_of_lt (div_neg_of_neg_of_pos hs (by norm_num))
  · rw [getD_zero_of_len_le (by rw [Tasmip_length]; omega)]

/-- C6 amended witness: tube potential 80, bins 40 and 10. -/
theorem tasmip_nonneg_entries_witness :
    0 ≤ (Tasmip 80 0 muZero).getD 40 0 ∧ 0 ≤ (Tasmip 80 0 muZero).getD 10 0 :=
  ⟨tasmip_nonneg_entries 80 muZero (by norm_num) (by norm_num) (Or.inr (by norm_num)) 40,
    tasmip_nonneg_entries 80 muZero (by norm_num) (by norm_num) (Or.inr (by norm_num)) 10⟩

lemma tasmipBin_zero_of_ge (tp : ℤ) (mm : ℝ) (mu : ℝ → ℝ) (n : ℕ) (hn : 151 ≤ n) :
    tasmipBin tp mm mu n = 0 := by
  rw [tasmipBin, if_pos]
  left
  rw [List.getD_eq_getElem?_getD, List.getElem?_eq_none]
  · rfl
  · rw [show num_polynomial_terms.length = 151 from rfl]
    omega

lemma tasmipNormSum_plain (tp : ℤ) (mm : ℝ) (mu : ℝ → ℝ) :
    tasmipNormSum tp mm mu = ∑ n ∈ Finset.range 151, tasmipBin tp mm mu n := by
  rw [tasmipNormSum_eq,
    trapezoid_sum _ (tasmipBin_boundary tp mm mu).1 (tasmipBin_boundary tp mm mu).2]

lemma tasmip11_vanish (mm : ℝ) (mu : ℝ → ℝ) :
    ∀ n < 151, n ≠ 10 → tasmipBin 11 mm mu n = 0 := by
  have hd : ∀ n < 151, n ≠ 10 → (num_polynomial_terms.getD n 0 = 0 ∨ 11 ≤ n) := by decide!
  intro n hn hne
  rw [tasmipBin, if_pos]
  rcases hd n hn hne with h | h
  · exact Or.inl h
  · exact Or.inr (by exact_mod_cast h)

lemma tasmipBin_10_ne (mm : ℝ) (mu : ℝ → ℝ) : tasmipBin 11 mm mu 10 ≠ 0 := by
  rw [tasmipBin_scale 11 0 mm mu 10]
  apply mul_ne_zero
  · have hb : tasmipBin (11 : ℤ) 0 mu 10 = ((binsZ 11).getD 10 0 : ℝ) / 10000000000 :=
      tasmipBin_eq_binsZ 11 10 mu (by norm_num)
    rw [hb]
    have hz : (binsZ 11).getD 10 0 ≠ 0 := by decide!
    exact div_ne_zero (by exact_mod_cast hz) (by norm_num)
  · exact Real.exp_ne_zero _

lemma tasmip11_normSum (mm : ℝ) (mu : ℝ → ℝ) :
    tasmipNormSum 11 mm mu = tasmipBin 11 mm mu 10 := by
  rw [tasmipNormSum_eq]
  have hsub : ({9, 10} : Finset ℕ) ⊆ Finset.range 150 := by
    intro m hm
    fin_cases hm <;> norm_num
  have hz : ∀ n ∈ Finset.range 150, n ∉ ({9, 10} : Finset ℕ) →
      (tasmipBin 11 mm mu n + tasmipBin 11 mm mu (n + 1)) / 2 = 0 := by
    intro n hn hns
    have hn' : n < 150 := Finset.mem_range.mp hn
    have h9 : n ≠ 9 := by
      intro h
      exact hns (by rw [h]; norm_num)
    have h10 : n ≠ 10 := by
      intro h
      exact hns (by rw [h]; norm_num)
    rw [tasmip11_vanish mm mu n (by omega) h10,
      tasmip11_vanish mm mu (n + 1) (by omega) (by omega)]
    norm_num
  rw [← Finset.sum_subset hsub hz,
    show ({9, 10} : Finset ℕ) = insert 9 {10} from rfl,
    Finset.sum_insert (by norm_num), Finset.sum_singleton,
    tasmip11_vanish mm mu 9 (by norm_num) (by norm_num),
    tasmip11_vanish mm mu 11 (by norm_num) (by norm_num)]
  ring

/-- At tube potential 11 only bin 10 is nonzero, so the normalized
spectrum is concentrated there and its energy-weighted mean is exactly
10 keV for every filtration thickness. -/
lemma tasmip11_mean (mm : ℝ) (mu : ℝ → ℝ) : meanEnergy (Tasmip 11 mm mu) = 10 := by
  have h0 : ∀ n ∈ Finset.range 151, n ≠ 10 →
      (n : ℝ) * (Tasmip 11 mm mu).getD n 0 = 0 := by
    intro n hn hne
    rw [Tasmip_getD 11 mm mu n (Finset.mem_range.mp hn),
      tasmip11_vanish mm mu n (Finset.mem_range.mp hn) hne, zero_div, mul_zero]
  have h1 : (10 : ℕ) ∉ Finset.range 151 →
      ((10 : ℕ) : ℝ) * (Tasmip 11 mm mu).getD 10 0 = 0 := by
    intro h
    exact absurd (Finset.mem_range.mpr (by norm_num)) h
  rw [meanEnergy, Finset.sum_eq_single 10 h0 h1,
    Tasmip_getD 11 mm mu 10 (by norm_num), tasmip11_normSum,
    div_self (tasmipBin_10_ne mm mu)]
  norm_num

/-- C7 counterexample: `muLin` is strictly decreasing, yet raising the
filtration from 0 to 1 at the valid tube potential 11 leaves the
energy-weighted mean unchanged (both are 10), so the mean does not
strictly increase with filtration. -/
theorem tasmip_hardening_cex :
    StrictAnti muLin ∧
    meanEnergy (Tasmip 11 1 muLin) = meanEnergy (Tasmip 11 0 muLin) := by
  constructor
  · intro p q hpq
    simp only [muLin]
    linarith
  · rw [tasmip11_mean, tasmip11_mean]

/-- Weighted Chebyshev-type inequality: for nonnegative weights `a` and
monovarying `w`, `x`, the weighted mean of `w` against `a·x` dominates
the weighted mean of `w` against `a` (in cross-multiplied form). -/
lemma weighted_cheby (s : Finset ℕ) (a w x : ℕ → ℝ)
    (ha : ∀ i ∈ s, 0 ≤ a i)
    (hwx : ∀ i ∈ s, ∀ j ∈ s, 0 ≤ (w i - w j) * (x i - x j)) :
    (∑ i ∈ s, w i * a i) * (∑ j ∈ s, a j * x j)
      ≤ (∑ i ∈ s, w i * a i * x i) * (∑ j ∈ s, a j) := by
  have key : 0 ≤ ∑ i ∈ s, ∑ j ∈ s, a i * a j * ((w i - w j) * (x i - x j)) :=
    Finset.sum_nonneg fun i hi => Finset.sum_nonneg fun j hj =>
      mul_nonneg (mul_nonneg (ha i hi) (ha j hj)) (hwx i hi j hj)
  have hexp : ∀ i ∈ s, (∑ j ∈ s, a i * a j * ((w i - w j) * (x i - x j)))
      = (∑ j ∈ s, (w i * a i * x i) * a j) - (∑ j ∈ s, (w i * a i) * (a j * x j))
        - (∑ j ∈ s, (a i * x i) * (w j * a j)) + (∑ j ∈ s, a i * (w j * a j * x j)) := by
    intro i _
    rw [← Finset.sum_sub_distrib, ← Finset.sum_sub_distrib, ← Finset.sum_add_distrib]
    exact Finset.sum_congr rfl fun j _ => by ring
  have hdouble : (∑ i ∈ s, ∑ j ∈ s, a i * a j * ((w i - w j) * (x i - x j)))
      = 2 * ((∑ i ∈ s, w i * a i * x i) * (∑ j ∈ s, a j))
        - 2 * ((∑ i ∈ s, w i * a i) * (∑ j ∈ s, a j * x j)) := by
    calc ∑ i ∈ s, ∑ j ∈ s, a i * a j * ((w i - w j) * (x i - x j))
        = ∑ i ∈ s, ((∑ j ∈ s, (w i * a i * x i) * a j)
            - (∑ j ∈ s, (w i * a i) * (a j * x j))
            - (∑ j ∈ s, (a i * x i) * (w j * a j))
            + (∑ j ∈ s, a i * (w j * a j * x j))) := Finset.sum_congr rfl hexp
      _ = (∑ i ∈ s, ∑ j ∈ s, (w i * a i * x i) * a j)
            - (∑ i ∈ s, ∑ j ∈ s, (w i * a i) * (a j * x j))
            - (∑ i ∈ s, ∑ j ∈ s, (a i * x i) * (w j * a j))
            + (∑ i ∈ s, ∑ j ∈ s, a i * (w j * a j * x j)) := by
          rw [Finset.sum_add_distrib, Finset.sum_sub_distrib, Finset.sum_sub_distrib]
      _ = (∑ i ∈ s, w i * a i * x i) * (∑ j ∈ s, a j)
            - (∑ i ∈ s, w i * a i) * (∑ j ∈ s, a j * x j)
            - (∑ i ∈ s, a i * x i) * (∑ j ∈ s, w j * a j)
            + (∑ i ∈ s, a i) * (∑ j ∈ s, w j * a j * x j) := by
          rw [← Finset.sum_mul_sum, ← Finset.sum_mul_sum, ← Finset.sum_mul_sum,
            ← Finset.sum_mul_sum]
      _ = 2 * ((∑ i ∈ s, w i * a i * x i) * (∑ j ∈ s, a j))
            - 2 * ((∑ i ∈ s, w i * a i) * (∑ j ∈ s, a j * x j)) := by
          have c1 : (∑ i ∈ s, a i * x i) * (∑ j ∈ s, w j * a j)
              = (∑ i ∈ s, w i * a i) * (∑ j ∈ s, a j * x j) := mul_comm _ _
          have c2 : (∑ i ∈ s, a i) * (∑ j ∈ s, w j * a j * x j)
              = (∑ i ∈ s, w i * a i * x i) * (∑ j ∈ s, a j) := mul_comm _ _
          rw [c1, c2]
          ring
  linarith [key, hdouble]

/-- Ratio form of the Chebyshev argument over the 151 energy bins. -/
lemma mean_ratio_mono (a x : ℕ → ℝ)
    (ha : ∀ n, 0 ≤ a n)
    (hx : ∀ n, 0 < x n)
    (hmono : ∀ i j : ℕ, i ≤ j → j ≤ 150 → x i ≤ x j)
    (hS : 0 < ∑ n ∈ Finset.range 151, a n) :
    (∑ n ∈ Finset.range 151, (n : ℝ) * a n) / (∑ n ∈ Finset.range 151, a n)
      ≤ (∑ n ∈ Finset.range 151, (n : ℝ) * a n * x n)
          / (∑ n ∈ Finset.range 151, a n * x n) := by
  have hk : ∃ k ∈ Finset.range 151, 0 < a k := by
    by_contra hcon
    push_neg at hcon
    have hle : (∑ n ∈ Finset.range 151, a n) ≤ 0 :=
      Finset.sum_nonpos fun n hn => hcon n hn
    linarith
  obtain ⟨k, hk_mem, hk_pos⟩ := hk
  have hS2 : 0 < ∑ n ∈ Finset.range 151, a n * x n := by
    have hterm : 0 < a k * x k := mul_pos hk_pos (hx k)
    have hle : a k * x k ≤ ∑ n ∈ Finset.range 151, a n * x n :=
      Finset.single_le_sum (fun n _ => mul_nonneg (ha n) (le_of_lt (hx n))) hk_mem
    linarith
  rw [div_le_div_iff₀ hS hS2]
  have hwx : ∀ i ∈ Finset.range 151, ∀ j ∈ Finset.range 151,
      0 ≤ ((i : ℝ) - (j : ℝ)) * (x i - x j) := by
    intro i hi j hj
    rcases le_total i j with hij | hij
    · have h1 : (i : ℝ) - (j : ℝ) ≤ 0 := by
        have hc : (i : ℝ) ≤ (j : ℝ) := Nat.cast_le.mpr hij
        linarith
      have h2 : x i - x j ≤ 0 := by
        have hj' := Finset.mem_range.mp hj
        have hc := hmono i j hij (by omega)
        linarith
      nlinarith
    · have h1 : (0 : ℝ) ≤ (i : ℝ) - (j : ℝ) := by
        have hc : (j : ℝ) ≤ (i : ℝ) := Nat.cast_le.mpr hij
        linarith
      have h2 : 0 ≤ x i - x j := by
        have hi' := Finset.mem_range.mp hi
        have hc := hmono j i hij (by omega)
        linarith
      nlinarith
  exact weighted_cheby (Finset.range 151) a (fun n => (n : ℝ)) x (fun n _ => ha n) hwx

/-- C7 amended: for a fixed tube potential, a provider nonincreasing over
the queried energies, and nonnegative raw bins at the smaller filtration
with nonzero total, raising the filtration does not decrease the
spectrum's energy-weighted mean (strict increase fails in general, see
the counterexample at tube potential 11). -/
theorem tasmip_hardening_mono (tp : ℤ) (mu : ℝ → ℝ) (mm1 mm2 : ℝ)
    (hmm : mm1 ≤ mm2)
    (hmu : ∀ i j : ℕ, i ≤ j → j ≤ 150 → mu ((j : ℝ) / 1000) ≤ mu ((i : ℝ) / 1000))
    (hpos : ∀ n : ℕ, 0 ≤ tasmipBin tp mm1 mu n)
    (htot : tasmipNormSum tp mm1 mu ≠ 0) :
    meanEnergy (Tasmip tp mm1 mu) ≤ meanEnergy (Tasmip tp mm2 mu) := by
  have hb2 : ∀ n : ℕ, tasmipBin tp mm2 mu n
      = tasmipBin tp mm1 mu n
        * Real.exp (-(mu ((n : ℝ) / 1000)) * (mm2 - mm1) * 0.1) :=
    fun n => tasmipBin_scale tp mm1 mm2 mu n
  have h1 : (∑ n ∈ Finset.range 151, (n : ℝ) * tasmipBin tp mm2 mu n)
      = ∑ n ∈ Finset.range 151, (n : ℝ) * tasmipBin tp mm1 mu n
          * Real.exp (-(mu ((n : ℝ) / 1000)) * (mm2 - mm1) * 0.1) :=
    Finset.sum_congr rfl fun n _ => by rw [hb2 n]; ring
  have h2 : (∑ n ∈ Finset.range 151, tasmipBin tp mm2 mu n)
      = ∑ n ∈ Finset.range 151, tasmipBin tp mm1 mu n
          * Real.exp (-(mu ((n : ℝ) / 1000)) * (mm2 - mm1) * 0.1) :=
    Finset.sum_congr rfl fun n _ => hb2 n
  have hS : 0 < ∑ n ∈ Finset.range 151, tasmipBin tp mm1 mu n := by
    have hnn : 0 ≤ ∑ n ∈ Finset.range 151, tasmipBin tp mm1 mu n :=
      Finset.sum_nonneg fun n _ => hpos n
    rcases hnn.lt_or_eq with h | h
    · exact h
    · exact absurd ((tasmipNormSum_plain tp mm1 mu).trans h.symm) htot
  have hmono : ∀ i j : ℕ, i ≤ j → j ≤ 150 →
      Real.exp (-(mu ((i : ℝ) / 1000)) * (mm2 - mm1) * 0.1)
        ≤ Real.exp (-(mu ((j : ℝ) / 1000)) * (mm2 - mm1) * 0.1) := by
    intro i j hij hj
    apply Real.exp_le_exp.mpr
    have hmuij := hmu i j hij hj
    have hd : 0 ≤ mm2 - mm1 := by linarith
    nlinarith [mul_nonneg (sub_nonneg.mpr hmuij) hd]
  rw [meanEnergy_Tasmip, meanEnergy_Tasmip, tasmipNormSum_plain, tasmipNormSum_plain,
    h1, h2]
  exact mean_ratio_mono (tasmipBin tp mm1 mu)
    (fun n => Real.exp (-(mu ((n : ℝ) / 1000)) * (mm2 - mm1) * 0.1))
    hpos (fun n => Real.exp_pos _) hmono hS

/-- C7 amended witness: tube potential 80, filtration raised from 0 to 1,
with the strictly decreasing provider `muLin`. -/
theorem tasmip_hardening_mono_witness :
    meanEnergy (Tasmip 80 0 muLin) ≤ meanEnergy (Tasmip 80 1 muLin) := by
  have hnn : nonnegList (binsZ 80) = true := by decide!
  have hsum : (0 : ℤ) < (binsZ 80).sum := by decide!
  refine tasmip_hardening_mono 80 muLin 0 1 (by norm_num) ?_ ?_ ?_
  · intro i j hij _
    simp only [muLin]
    have hc : (i : ℝ) ≤ (j : ℝ) := Nat.cast_le.mpr hij
    linarith
  · intro n
    by_cases hn : n < 151
    · have hb : tasmipBin (80 : ℤ) 0 muLin n = ((binsZ 80).getD n 0 : ℝ) / 10000000000 :=
        tasmipBin_eq_binsZ 80 n muLin hn
      rw [hb]
      exact div_nonneg (by exact_mod_cast nonnegList_getD _ hnn n) (by norm_num)
    · rw [tasmipBin_zero_of_ge 80 0 muLin n (by omega)]
  · have h : tasmipNormSum (80 : ℤ) 0 muLin = ((binsZ 80).sum : ℝ) / 10000000000 :=
      tasmipNormSum_eq_binsZ 80 muLin
    rw [h]
    exact ne_of_gt (div_pos (by exact_mod_cast hsum) (by norm_num))

end Solutio





